import Mathlib

/-!
# printable_newtype.c

A shallow embedding of `src/printable_newtype.c`: a hand-rolled virtual
function table for a `printable` interface, implemented for `int` and for
`double`, and a `main` that prints one value of each kind.

* Memory is a list of objects addressed by position; a pointer is an address.
  The two global vtables live at the first two addresses, locals are
  allocated after them.
* A C function `void f(void *)` is a function from the pointer and the state
  to a new state or a fault; a fault stands for undefined behaviour (a bad
  dereference, a call through a null pointer, reading an object at the wrong
  type).
* Standard output is the list of characters written so far.
* `printf` and `puts` belong to the C library; they are modelled as ISO C
  describes the conversions `%d` and `%lf`, with the correctly rounded
  (ties-to-even) decimal conversion that glibc implements.
-/

namespace PrintableNewtype

/-! ## Values -/

/-- An address of an object in memory (`void *`, `int *`, `double *`, ...). -/
abbrev Ptr := Nat

/-- The least value of a 32-bit `int`. -/
def INT_MIN : Int := -2147483648

/-- An IEEE-754 binary64 (`double`), as its three bit fields: the sign bit,
the 11-bit biased exponent and the 52-bit fraction. -/
structure Binary64 where
  sign : Bool
  expo : Nat
  frac : Nat
deriving DecidableEq, Repr

namespace Binary64

/-- The bit fields are in range. -/
def InRange (x : Binary64) : Prop := x.expo < 2048 ∧ x.frac < 2 ^ 52

/-- Neither an infinity nor a NaN. -/
def Finite (x : Binary64) : Prop := x.expo < 2047

instance (x : Binary64) : Decidable x.InRange := by
  unfold InRange; infer_instance

instance (x : Binary64) : Decidable x.Finite := by
  unfold Finite; infer_instance

/-- The integer significand: the fraction, with the hidden bit for a normal
number. -/
def mant (x : Binary64) : Nat :=
  if x.expo = 0 then x.frac else 2 ^ 52 + x.frac

/-- The exponent field as it scales the significand (a subnormal scales like
exponent field 1): the magnitude is `mant * 2 ^ (scale - 1075)`. -/
def scale (x : Binary64) : Nat :=
  if x.expo = 0 then 1 else x.expo

/-- The magnitude of a finite binary64, as an exact rational. -/
def magnitude (x : Binary64) : ℚ :=
  if 1075 ≤ x.scale then (x.mant : ℚ) * 2 ^ (x.scale - 1075)
  else (x.mant : ℚ) / 2 ^ (1075 - x.scale)

/-- The exact value of a finite binary64. -/
def toRat (x : Binary64) : ℚ :=
  if x.sign then - x.magnitude else x.magnitude

/-- The quotient `m / d` rounded to the nearest integer, ties to even. -/
def roundDiv (m d : Nat) : Nat :=
  let q := m / d
  let r := m % d
  if 2 * r < d then q
  else if d < 2 * r then q + 1
  else if q % 2 = 0 then q else q + 1

/-- The magnitude times `10 ^ 6`, rounded to the nearest integer, ties to
even. -/
def scaled6 (x : Binary64) : Nat :=
  if 1075 ≤ x.scale then x.mant * 10 ^ 6 * 2 ^ (x.scale - 1075)
  else roundDiv (x.mant * 10 ^ 6) (2 ^ (1075 - x.scale))

end Binary64

/-! ## The C library: decimal conversions and output -/

/-- The character of a decimal digit, `'0' + d`. -/
def digitChar (d : Nat) : Char := Char.ofNat (48 + d)

/-- The decimal digits of `n`, least significant first; `fuel` bounds the
number of digits. -/
def decimalRev : Nat → Nat → List Char
  | 0, _ => []
  | fuel + 1, n =>
    digitChar (n % 10) :: (if n < 10 then [] else decimalRev fuel (n / 10))

/-- The decimal digits of `n`, most significant first, without leading
zeros (`0` is the single digit `0`). -/
def decimal (n : Nat) : List Char := (decimalRev (n + 1) n).reverse

/-- The six decimal digits of `k` below `10 ^ 6`, zero padded. -/
def fixed6 (k : Nat) : List Char :=
  [digitChar (k / 100000 % 10), digitChar (k / 10000 % 10), digitChar (k / 1000 % 10),
   digitChar (k / 100 % 10), digitChar (k / 10 % 10), digitChar (k % 10)]

/-- The number a run of decimal digit characters denotes. -/
def decValue (ds : List Char) : Nat :=
  ds.foldl (fun acc c => 10 * acc + (c.toNat - 48)) 0

/-- The text of the conversion `%d`. -/
def fmt_d (n : Int) : List Char :=
  if n < 0 then '-' :: decimal n.natAbs else decimal n.natAbs

/-- The text of the conversion `%lf` (the same as `%f`, precision 6). -/
def fmt_lf (x : Binary64) : List Char :=
  let sgn : List Char := if x.sign then ['-'] else []
  if x.expo = 2047 then
    sgn ++ (if x.frac = 0 then ['i', 'n', 'f'] else ['n', 'a', 'n'])
  else
    sgn ++ decimal (x.scaled6 / 10 ^ 6) ++ '.' :: fixed6 (x.scaled6 % 10 ^ 6)

/-! ## The machine -/

/-- A value of type `void (*)(void *)`: null, or the address of one of the
two functions of that type. -/
inductive FnPtr where
  | null
  | print_int
  | print_double
deriving DecidableEq, Repr

/-- The virtual function table of the printable interface. -/
structure printable_vtable where
  print : FnPtr
deriving DecidableEq, Repr

/-- An object in memory. -/
inductive Obj where
  | int (n : Int)
  | double (x : Binary64)
  | vtable (vt : printable_vtable)
deriving DecidableEq, Repr

/-- The state of the program: memory and what was written to standard
output. -/
structure State where
  mem : List Obj
  out : List Char
deriving DecidableEq, Repr

/-- Undefined behaviour. -/
inductive Fault where
  | badPointer
  | badType
  | badCall
deriving DecidableEq, Repr

/-- The meaning of a C function `void f(void *)`. -/
abbrev Fn := Ptr → State → Except Fault State

/-- Write text to standard output. -/
def State.write (s : State) (txt : List Char) : State :=
  { s with out := s.out ++ txt }

/-- The assignment `*a = o`. -/
def State.store (s : State) (a : Ptr) (o : Obj) : State :=
  { s with mem := s.mem.set a o }

/-- A new local variable initialised to `o`: its address and the new
state. -/
def State.alloc (s : State) (o : Obj) : Ptr × State :=
  (s.mem.length, { s with mem := s.mem ++ [o] })

/-- The library call `puts(str)`: the string and a newline. -/
def puts (str : List Char) (s : State) : State :=
  s.write (str ++ ['\n'])

/-! ## The program -/

/-- The printable interface: a pointer to the underlying value and a pointer
to the vtable of its concrete type. -/
structure printable where
  val : Ptr
  vt : Ptr
deriving DecidableEq, Repr

/-- `printable_print(p)` is `p.vt->print(p.val)`; `code` resolves a function
pointer to the function it points to. -/
def printable_print (code : FnPtr → Option Fn) (p : printable) (s : State) :
    Except Fault State :=
  match s.mem[p.vt]? with
  | some (.vtable vt) =>
    match code vt.print with
    | some f => f p.val s
    | none => .error .badCall
  | some _ => .error .badType
  | none => .error .badPointer

/-- `print_int(vi)` is `int *i = vi; printf("%d", *i);`. -/
def print_int : Fn := fun vi s =>
  match s.mem[vi]? with
  | some (.int i) => .ok (s.write (fmt_d i))
  | some _ => .error .badType
  | none => .error .badPointer

/-- The initialiser of the global vtable for ints. -/
def int_printable_vtable : printable_vtable := { print := .print_int }

/-- The address `&int_printable_vtable`. -/
def addr_int_printable_vtable : Ptr := 0

/-- Wrap an int in the printable interface. -/
def int2printable (i : Ptr) : printable :=
  { val := i, vt := addr_int_printable_vtable }

/-- `print_double(vd)` is `double *d = vd; printf("%lf", *d);`. -/
def print_double : Fn := fun vd s =>
  match s.mem[vd]? with
  | some (.double d) => .ok (s.write (fmt_lf d))
  | some _ => .error .badType
  | none => .error .badPointer

/-- The initialiser of the global vtable for doubles. -/
def double_printable_vtable : printable_vtable := { print := .print_double }

/-- The address `&double_printable_vtable`. -/
def addr_double_printable_vtable : Ptr := 1

/-- Wrap a double in the printable interface. -/
def double2printable (d : Ptr) : printable :=
  { val := d, vt := addr_double_printable_vtable }

/-- The functions of the program, by their address. -/
def program : FnPtr → Option Fn
  | .null => none
  | .print_int => some print_int
  | .print_double => some print_double

/-- The state at program start: the two global vtables, initialised, and
nothing written. -/
def start : State :=
  { mem := [.vtable int_printable_vtable, .vtable double_printable_vtable], out := [] }

/-- Both global vtables hold their initial value. -/
def State.Globals (s : State) : Prop :=
  s.mem[addr_int_printable_vtable]? = some (.vtable int_printable_vtable) ∧
  s.mem[addr_double_printable_vtable]? = some (.vtable double_printable_vtable)

instance (s : State) : Decidable s.Globals := by
  unfold State.Globals; infer_instance

/-- The double constant `3708.8`. -/
def lit_3708_8 : Binary64 := { sign := false, expo := 1034, frac := 3652137822820762 }

/-- The double constant `0.1`. -/
def lit_0_1 : Binary64 := { sign := false, expo := 1019, frac := 2702159776422298 }

/-- Program start with local variables holding `os`, at addresses 2, 3, ... -/
def withLocals (os : List Obj) : State :=
  { start with mem := start.mem ++ os }

/-- Program start with two int variables holding 25 and nothing else. -/
def twoInts : State :=
  withLocals [.int 25, .int 25]

/-- Program start with two double variables holding 0.1 and nothing else. -/
def twoDoubles : State :=
  withLocals [.double lit_0_1, .double lit_0_1]

/-- The state of `main` once `i` and `d` are initialised, with their
addresses. -/
def mainLocals (s : State) : Ptr × Ptr × State :=
  let (i, s) := s.alloc (.int 25)
  let (d, s) := s.alloc (.double lit_3708_8)
  (i, d, s)

/-- The function `main`: the exit code and the final state. -/
def main (s : State) : Except Fault (Int × State) :=
  let (i, d, s) := mainLocals s
  match printable_print program (int2printable i) s with
  | .error e => .error e
  | .ok s =>
    let s := puts [] s
    match printable_print program (double2printable d) s with
    | .error e => .error e
    | .ok s =>
      let s := puts [] s
      .ok (0, s)

/-! ## Decimal digits -/

theorem digitChar_isDigit {d : Nat} (h : d < 10) : (digitChar d).isDigit = true := by
  interval_cases d <;> decide

theorem digitChar_toNat {d : Nat} (h : d < 10) : (digitChar d).toNat - 48 = d := by
  interval_cases d <;> decide

theorem digitChar_ne_zero {d : Nat} (h : d < 10) (hd : d ≠ 0) : digitChar d ≠ '0' := by
  interval_cases d <;> first | exact absurd rfl hd | decide

theorem decimalRev_isDigit (fuel : Nat) :
    ∀ n : Nat, ∀ c ∈ decimalRev fuel n, c.isDigit = true := by
  induction fuel with
  | zero => intro n c hc; simp [decimalRev] at hc
  | succ fuel ih =>
    intro n c hc
    simp only [decimalRev, List.mem_cons] at hc
    rcases hc with rfl | hc
    · exact digitChar_isDigit (Nat.mod_lt _ (by decide))
    · split at hc
      · simp at hc
      · exact ih _ c hc

theorem decimalRev_ne_nil (fuel n : Nat) : decimalRev (fuel + 1) n ≠ [] := by
  simp [decimalRev]

/-- With enough fuel the digits, weighted by their place, add up to `n`. -/
theorem decimalRev_value (fuel : Nat) :
    ∀ n : Nat, n < fuel →
      (decimalRev fuel n).foldr (fun c acc => 10 * acc + (c.toNat - 48)) 0 = n := by
  induction fuel with
  | zero => intro n h; omega
  | succ fuel ih =>
    intro n h
    simp only [decimalRev, List.foldr_cons]
    rw [digitChar_toNat (Nat.mod_lt _ (by decide))]
    split
    · simp only [List.foldr_nil]; omega
    · rw [ih (n / 10) (by omega)]; omega

/-- With enough fuel the most significant digit of a positive number is not
zero. -/
theorem decimalRev_getLast (fuel : Nat) :
    ∀ n : Nat, 0 < n → n < fuel → (decimalRev fuel n).getLast? ≠ some '0' := by
  induction fuel with
  | zero => intro n _ h; omega
  | succ fuel ih =>
    intro n hpos h
    simp only [decimalRev]
    split
    · rename_i hlt
      simp only [List.getLast?_singleton, ne_eq, Option.some.injEq]
      exact digitChar_ne_zero (Nat.mod_lt _ (by decide)) (by omega)
    · rename_i hge
      have hne : decimalRev fuel (n / 10) ≠ [] := by
        cases fuel with
        | zero => omega
        | succ k => exact decimalRev_ne_nil k _
      obtain ⟨c, cs, hcs⟩ := List.exists_cons_of_ne_nil hne
      rw [hcs, List.getLast?_cons_cons, ← hcs]
      exact ih (n / 10) (by omega) (by omega)

theorem decimal_ne_nil (n : Nat) : decimal n ≠ [] := by
  simp [decimal, decimalRev]

theorem decimal_isDigit (n : Nat) : ∀ c ∈ decimal n, c.isDigit = true := by
  intro c hc
  rw [decimal, List.mem_reverse] at hc
  exact decimalRev_isDigit _ _ c hc

theorem decimal_value (n : Nat) : decValue (decimal n) = n := by
  rw [decValue, decimal, List.foldl_reverse]
  exact decimalRev_value (n + 1) n (Nat.lt_succ_self n)

theorem decimal_zero : decimal 0 = ['0'] := by decide

theorem decimal_head (n : Nat) (h : n ≠ 0) : (decimal n).head? ≠ some '0' := by
  rw [decimal, List.head?_reverse]
  exact decimalRev_getLast (n + 1) n (Nat.pos_of_ne_zero h) (Nat.lt_succ_self n)

theorem fixed6_length (k : Nat) : (fixed6 k).length = 6 := rfl

theorem fixed6_isDigit (k : Nat) : ∀ c ∈ fixed6 k, c.isDigit = true := by
  intro c hc
  simp only [fixed6, List.mem_cons, List.mem_singleton, List.not_mem_nil, or_false] at hc
  rcases hc with rfl | rfl | rfl | rfl | rfl | rfl <;>
    exact digitChar_isDigit (Nat.mod_lt _ (by decide))

theorem fixed6_value (k : Nat) (h : k < 10 ^ 6) : decValue (fixed6 k) = k := by
  simp only [decValue, fixed6, List.foldl_cons, List.foldl_nil]
  repeat rw [digitChar_toNat (Nat.mod_lt _ (by decide))]
  omega

/-! ## Rounding -/

theorem Binary64.roundDiv_bounds (m d : Nat) (hd : 0 < d) :
    2 * (Binary64.roundDiv m d * d) ≤ 2 * m + d ∧ 2 * m ≤ 2 * (Binary64.roundDiv m d * d) + d := by
  have hm : d * (m / d) + m % d = m := Nat.div_add_mod m d
  have hr : m % d < d := Nat.mod_lt m hd
  have hc : m / d * d = d * (m / d) := Nat.mul_comm _ _
  simp only [Binary64.roundDiv]
  split
  · omega
  · split
    · rw [Nat.add_mul]; omega
    · split
      · omega
      · rw [Nat.add_mul]; omega

/-- The rounded magnitude, in units of `10 ^ (-6)`, is within half a unit of
the exact magnitude. -/
theorem Binary64.scaled6_error (x : Binary64) :
    |(x.scaled6 : ℚ) / 10 ^ 6 - x.magnitude| ≤ 1 / (2 * 10 ^ 6) := by
  unfold Binary64.scaled6 Binary64.magnitude
  split
  · have : ((x.mant * 10 ^ 6 * 2 ^ (x.scale - 1075) : Nat) : ℚ) / 10 ^ 6
        = (x.mant : ℚ) * 2 ^ (x.scale - 1075) := by
      push_cast; field_simp; ring
    rw [this, sub_self, abs_zero]; positivity
  · set d : Nat := 2 ^ (1075 - x.scale) with hd
    have hdpos : 0 < d := by rw [hd]; positivity
    obtain ⟨h1, h2⟩ := Binary64.roundDiv_bounds (x.mant * 10 ^ 6) d hdpos
    set N : Nat := Binary64.roundDiv (x.mant * 10 ^ 6) d
    have hdq : (0 : ℚ) < d := by exact_mod_cast hdpos
    have h1q : (2 : ℚ) * (N * d) ≤ 2 * (x.mant * 10 ^ 6) + d := by exact_mod_cast h1
    have h2q : (2 : ℚ) * (x.mant * 10 ^ 6) ≤ 2 * (N * d) + d := by exact_mod_cast h2
    have hcast : ((2 : ℚ) ^ (1075 - x.scale)) = (d : ℚ) := by rw [hd]; push_cast; rfl
    rw [hcast]
    have key : (N : ℚ) / 10 ^ 6 - (x.mant : ℚ) / d
        = (N * d - x.mant * 10 ^ 6) / (10 ^ 6 * d) := by
      field_simp
      ring
    rw [key, abs_le]
    constructor
    · rw [le_div_iff₀ (by positivity)]; nlinarith
    · rw [div_le_iff₀ (by positivity)]; nlinarith

/-- The constant `3708.8` is the binary64 nearest to 3708.8: it is within
half a unit in the last place, `2 ^ (-42)`. -/
theorem lit_3708_8_nearest :
    lit_3708_8.InRange ∧ lit_3708_8.Finite ∧ |lit_3708_8.toRat - 37088 / 10| < 1 / 2 ^ 42 := by
  refine ⟨⟨by decide, by decide⟩, by decide, ?_⟩
  norm_num [lit_3708_8, Binary64.toRat, Binary64.magnitude, Binary64.mant, Binary64.scale,
    abs_lt]

/-- The constant `0.1` is the binary64 nearest to one tenth: it is within
half a unit in the last place, `2 ^ (-57)`. -/
theorem lit_0_1_nearest :
    lit_0_1.InRange ∧ lit_0_1.Finite ∧ |lit_0_1.toRat - 1 / 10| < 1 / 2 ^ 57 := by
  refine ⟨⟨by decide, by decide⟩, by decide, ?_⟩
  norm_num [lit_0_1, Binary64.toRat, Binary64.magnitude, Binary64.mant, Binary64.scale,
    abs_lt]

/-! ## Dispatch through the wrappers -/

theorem printable_print_int2printable (s : State) (r : Ptr) (n : Int) (hg : s.Globals)
    (hr : s.mem[r]? = some (.int n)) :
    printable_print program (int2printable r) s = .ok (s.write (fmt_d n)) := by
  simp only [printable_print, int2printable, hg.1, int_printable_vtable, program, print_int, hr]

theorem printable_print_double2printable (s : State) (r : Ptr) (x : Binary64) (hg : s.Globals)
    (hr : s.mem[r]? = some (.double x)) :
    printable_print program (double2printable r) s = .ok (s.write (fmt_lf x)) := by
  simp only [printable_print, double2printable, hg.2, double_printable_vtable, program,
    print_double, hr]

theorem State.Globals_write (s : State) (txt : List Char) (hg : s.Globals) :
    (s.write txt).Globals := hg

/-- A new local variable leaves the global vtables as they are. -/
theorem State.Globals_alloc (s : State) (o : Obj) (hg : s.Globals) : (s.alloc o).2.Globals := by
  have h0 : addr_int_printable_vtable < s.mem.length := by
    rcases Nat.lt_or_ge addr_int_printable_vtable s.mem.length with h | h
    · exact h
    · have := hg.1; rw [List.getElem?_eq_none h] at this; cases this
  have h1 : addr_double_printable_vtable < s.mem.length := by
    rcases Nat.lt_or_ge addr_double_printable_vtable s.mem.length with h | h
    · exact h
    · have := hg.2; rw [List.getElem?_eq_none h] at this; cases this
  exact ⟨by simp only [State.alloc]; rw [List.getElem?_append_left h0]; exact hg.1,
    by simp only [State.alloc]; rw [List.getElem?_append_left h1]; exact hg.2⟩

theorem State.mem_store_same (s : State) (a : Ptr) (o o' : Obj) (h : s.mem[a]? = some o) :
    (s.store a o').mem[a]? = some o' := by
  have hlt : a < s.mem.length := by
    rcases Nat.lt_or_ge a s.mem.length with hlt | hge
    · exact hlt
    · rw [List.getElem?_eq_none hge] at h; cases h
  simp [State.store, List.getElem?_set, hlt]

theorem State.mem_store_other (s : State) (a b : Ptr) (o : Obj) (h : a ≠ b) :
    (s.store a o).mem[b]? = s.mem[b]? := by
  simp [State.store, List.getElem?_set, h]

/-- Assigning to a variable that is not a vtable leaves the global vtables
as they are. -/
theorem State.Globals_store (s : State) (a : Ptr) (o o' : Obj) (hg : s.Globals)
    (h : s.mem[a]? = some o) (ho : ∀ vt, o ≠ .vtable vt) : (s.store a o').Globals := by
  have h0 : a ≠ addr_int_printable_vtable := by
    rintro rfl; rw [hg.1] at h; exact ho _ (Option.some.inj h).symm
  have h1 : a ≠ addr_double_printable_vtable := by
    rintro rfl; rw [hg.2] at h; exact ho _ (Option.some.inj h).symm
  exact ⟨by rw [State.mem_store_other s a _ o' h0]; exact hg.1,
    by rw [State.mem_store_other s a _ o' h1]; exact hg.2⟩

theorem fmt_d_injective (n m : Int) (h : fmt_d n = fmt_d m) : n = m := by
  have hneq : ∀ (k j : Nat), '-' :: decimal k ≠ decimal j := by
    intro k j hkj
    have := decimal_isDigit j '-' (by rw [← hkj]; exact List.mem_cons_self _ _)
    exact absurd this (by decide)
  unfold fmt_d at h
  split at h <;> split at h
  · have := congrArg decValue (List.cons.inj h).2
    rw [decimal_value, decimal_value] at this
    omega
  · exact absurd h (hneq _ _)
  · exact absurd h.symm (hneq _ _)
  · have := congrArg decValue h
    rw [decimal_value, decimal_value] at this
    omega

/-! ## The driver -/

/-- C1: run from program start, `main` writes exactly the characters
`25`, newline, `3708.800000`, newline to standard output, which was empty, and
returns exit code 0. -/
theorem main_output :
    start.out = [] ∧
    ∃ s : State, main start = .ok (0, s) ∧ s.out = "25\n3708.800000\n".toList :=
  ⟨rfl, _, rfl, rfl⟩

/-! ## The int adapter -/

/-- C2: dispatching print on a wrapped int variable holding `n` appends to
standard output a minus sign exactly when `n < 0`, followed by a non-empty run
of decimal digits that denotes `|n|` and has no leading zero (the single digit
`0` for `n = 0`), and nothing else; for `-7` the text is `-7` and for `INT_MIN`
it is `-2147483648`. -/
theorem print_int_rendering (s : State) (r : Ptr) (n : Int) (hg : s.Globals)
    (hr : s.mem[r]? = some (.int n)) :
    ∃ ds : List Char,
      printable_print program (int2printable r) s
        = .ok (s.write ((if n < 0 then ['-'] else []) ++ ds)) ∧
      ds ≠ [] ∧ (∀ c ∈ ds, c.isDigit = true) ∧ decValue ds = n.natAbs ∧
      (n ≠ 0 → ds.head? ≠ some '0') ∧ (n = 0 → ds = ['0']) ∧
      (n = -7 → (if n < 0 then ['-'] else []) ++ ds = ['-', '7']) ∧
      (n = INT_MIN → (if n < 0 then ['-'] else []) ++ ds = "-2147483648".toList) := by
  refine ⟨decimal n.natAbs, ?_, decimal_ne_nil _, decimal_isDigit _, decimal_value _, ?_, ?_,
    ?_, ?_⟩
  · rw [printable_print_int2printable s r n hg hr, fmt_d]
    split <;> rfl
  · intro hn
    exact decimal_head _ (Int.natAbs_ne_zero.mpr hn)
  · rintro rfl; exact decimal_zero
  · rintro rfl; decide
  · rintro rfl; decide

theorem print_int_rendering_witness :
    ∃ ds : List Char,
      printable_print program (int2printable 2) (withLocals [.int (-7)])
        = .ok ((withLocals [.int (-7)]).write ((if (-7 : Int) < 0 then ['-'] else []) ++ ds)) ∧
      ds ≠ [] ∧ (∀ c ∈ ds, c.isDigit = true) ∧ decValue ds = (-7 : Int).natAbs ∧
      ((-7 : Int) ≠ 0 → ds.head? ≠ some '0') ∧ ((-7 : Int) = 0 → ds = ['0']) ∧
      ((-7 : Int) = -7 → (if (-7 : Int) < 0 then ['-'] else []) ++ ds = ['-', '7']) ∧
      ((-7 : Int) = INT_MIN →
        (if (-7 : Int) < 0 then ['-'] else []) ++ ds = "-2147483648".toList) :=
  print_int_rendering (withLocals [.int (-7)]) 2 (-7) (by decide) (by decide)

/-! ## The double adapter -/

/-- C3: dispatching print on a wrapped double variable holding a finite `x`
appends to standard output an optional minus sign, one or more decimal digits,
a point and exactly six decimal digits, and nothing else; the number this text
denotes differs from the exact value of `x` by at most `0.5 * 10 ^ (-6)`. -/
theorem print_double_rendering (s : State) (r : Ptr) (x : Binary64) (hg : s.Globals)
    (hr : s.mem[r]? = some (.double x)) (hx : x.Finite) :
    ∃ ip fp : List Char,
      printable_print program (double2printable r) s
        = .ok (s.write ((if x.sign then ['-'] else []) ++ ip ++ '.' :: fp)) ∧
      ip ≠ [] ∧ (∀ c ∈ ip, c.isDigit = true) ∧
      fp.length = 6 ∧ (∀ c ∈ fp, c.isDigit = true) ∧
      |(if x.sign then -1 else 1) * ((decValue ip : ℚ) + (decValue fp : ℚ) / 10 ^ 6) - x.toRat|
        ≤ 1 / (2 * 10 ^ 6) := by
  refine ⟨decimal (x.scaled6 / 10 ^ 6), fixed6 (x.scaled6 % 10 ^ 6), ?_, decimal_ne_nil _,
    decimal_isDigit _, fixed6_length _, fixed6_isDigit _, ?_⟩
  · rw [printable_print_double2printable s r x hg hr, fmt_lf]
    rw [if_neg (Nat.ne_of_lt hx)]
  · rw [decimal_value, fixed6_value _ (Nat.mod_lt _ (by norm_num))]
    have hsum : ((x.scaled6 / 10 ^ 6 : Nat) : ℚ) + ((x.scaled6 % 10 ^ 6 : Nat) : ℚ) / 10 ^ 6
        = (x.scaled6 : ℚ) / 10 ^ 6 := by
      have h := Nat.div_add_mod x.scaled6 (10 ^ 6)
      have hq : ((10 ^ 6 * (x.scaled6 / 10 ^ 6) + x.scaled6 % 10 ^ 6 : Nat) : ℚ)
          = (x.scaled6 : ℚ) := by rw [h]
      push_cast at hq
      field_simp
      linarith
    rw [hsum]
    have herr := Binary64.scaled6_error x
    unfold Binary64.toRat
    cases x.sign
    · simpa using herr
    · simp only [if_true]
      rw [show (-1 : ℚ) * ((x.scaled6 : ℚ) / 10 ^ 6) - -x.magnitude
          = -((x.scaled6 : ℚ) / 10 ^ 6 - x.magnitude) by ring, abs_neg]
      exact herr

theorem print_double_rendering_witness :
    ∃ ip fp : List Char,
      printable_print program (double2printable 2) (withLocals [.double lit_3708_8])
        = .ok ((withLocals [.double lit_3708_8]).write
            ((if lit_3708_8.sign then ['-'] else []) ++ ip ++ '.' :: fp)) ∧
      ip ≠ [] ∧ (∀ c ∈ ip, c.isDigit = true) ∧
      fp.length = 6 ∧ (∀ c ∈ fp, c.isDigit = true) ∧
      |(if lit_3708_8.sign then -1 else 1) * ((decValue ip : ℚ) + (decValue fp : ℚ) / 10 ^ 6)
          - lit_3708_8.toRat| ≤ 1 / (2 * 10 ^ 6) :=
  print_double_rendering (withLocals [.double lit_3708_8]) 2 lit_3708_8 (by decide)
    (by decide) (by decide)

/-- C4: the constant `0.1` is the binary64 nearest to one tenth, and
dispatching print on a wrapped double variable holding it appends exactly
`0.100000` to standard output. -/
theorem print_double_one_tenth (s : State) (r : Ptr) (hg : s.Globals)
    (hr : s.mem[r]? = some (.double lit_0_1)) :
    |lit_0_1.toRat - 1 / 10| < 1 / 2 ^ 57 ∧
    printable_print program (double2printable r) s = .ok (s.write "0.100000".toList) := by
  refine ⟨lit_0_1_nearest.2.2, ?_⟩
  rw [printable_print_double2printable s r lit_0_1 hg hr]
  rfl

theorem print_double_one_tenth_witness :
    |lit_0_1.toRat - 1 / 10| < 1 / 2 ^ 57 ∧
    printable_print program (double2printable 2) (withLocals [.double lit_0_1])
      = .ok ((withLocals [.double lit_0_1]).write "0.100000".toList) :=
  print_double_one_tenth (withLocals [.double lit_0_1]) 2 (by decide) (by decide)

/-! ## Dispatch -/

/-- C5: for a handle whose descriptor holds in its print slot a pointer to
the function `f`, `printable_print` is exactly one call of `f` on the handle's
value pointer, in the same state; when `f` ignores its argument the result
does not depend on the value pointer. -/
theorem printable_print_effect (code : FnPtr → Option Fn) (p : printable) (s : State)
    (vt : printable_vtable) (f : Fn) (hvt : s.mem[p.vt]? = some (.vtable vt))
    (hf : code vt.print = some f) :
    printable_print code p s = f p.val s ∧
    ((∀ a b t, f a t = f b t) →
      ∀ v, printable_print code { val := v, vt := p.vt } s = printable_print code p s) := by
  have hcall : ∀ v, printable_print code { val := v, vt := p.vt } s = f v s := by
    intro v
    simp only [printable_print, hvt, hf]
  refine ⟨hcall p.val, ?_⟩
  intro hconst v
  rw [hcall v, show printable_print code p s = f p.val s from hcall p.val]
  exact hconst v p.val s

theorem printable_print_effect_witness :
    printable_print program (int2printable 2) (withLocals [.int 25])
      = print_int (int2printable 2).val (withLocals [.int 25]) ∧
    ((∀ a b t, print_int a t = print_int b t) →
      ∀ v, printable_print program { val := v, vt := (int2printable 2).vt }
          (withLocals [.int 25])
        = printable_print program (int2printable 2) (withLocals [.int 25])) :=
  printable_print_effect program (int2printable 2) (withLocals [.int 25])
    int_printable_vtable print_int (by decide) rfl

/-- C6: `int2printable r` is the handle with value pointer `r` and
descriptor `&int_printable_vtable`, whose print slot is initialised to
`print_int`; `double2printable r` is the handle with value pointer `r` and
descriptor `&double_printable_vtable`, whose print slot is initialised to
`print_double`; the two descriptors, their print slots and the two printers
are different. -/
theorem wrappers_bind_own_printer (r : Ptr) :
    (int2printable r).val = r ∧
    (int2printable r).vt = addr_int_printable_vtable ∧
    start.mem[addr_int_printable_vtable]? = some (.vtable int_printable_vtable) ∧
    int_printable_vtable.print = .print_int ∧
    program .print_int = some print_int ∧
    (double2printable r).val = r ∧
    (double2printable r).vt = addr_double_printable_vtable ∧
    start.mem[addr_double_printable_vtable]? = some (.vtable double_printable_vtable) ∧
    double_printable_vtable.print = .print_double ∧
    program .print_double = some print_double ∧
    (int2printable r).vt ≠ (double2printable r).vt ∧
    int_printable_vtable.print ≠ double_printable_vtable.print ∧
    print_int ≠ print_double := by
  refine ⟨rfl, rfl, rfl, rfl, rfl, rfl, rfl, rfl, rfl, rfl, Nat.zero_ne_one, by decide, ?_⟩
  intro h
  have h2 := congrFun (congrFun h 2) (withLocals [.int 25])
  exact absurd h2 (by simp [print_int, print_double, withLocals, start])

/-- C7: two int variables that hold equal values print the same text
through their handles, whether both are printed from the same state or one
after the other, and printing the same handle twice writes the same text both
times; separately, the same holds of two double variables that hold equal
values. Neither half needs an object of the other kind in memory. -/
theorem dispatch_deterministic :
    (∀ (s : State) (a b : Ptr) (n : Int), s.Globals →
      s.mem[a]? = some (.int n) → s.mem[b]? = some (.int n) →
      ∃ ti : List Char,
        printable_print program (int2printable a) s = .ok (s.write ti) ∧
        printable_print program (int2printable b) s = .ok (s.write ti) ∧
        printable_print program (int2printable b) (s.write ti)
          = .ok ((s.write ti).write ti) ∧
        printable_print program (int2printable a) (s.write ti)
          = .ok ((s.write ti).write ti)) ∧
    (∀ (s : State) (c d : Ptr) (x : Binary64), s.Globals →
      s.mem[c]? = some (.double x) → s.mem[d]? = some (.double x) →
      ∃ td : List Char,
        printable_print program (double2printable c) s = .ok (s.write td) ∧
        printable_print program (double2printable d) s = .ok (s.write td) ∧
        printable_print program (double2printable d) (s.write td)
          = .ok ((s.write td).write td) ∧
        printable_print program (double2printable c) (s.write td)
          = .ok ((s.write td).write td)) := by
  constructor
  · intro s a b n hg ha hb
    exact ⟨fmt_d n,
      printable_print_int2printable s a n hg ha,
      printable_print_int2printable s b n hg hb,
      printable_print_int2printable _ b n (s.Globals_write _ hg) hb,
      printable_print_int2printable _ a n (s.Globals_write _ hg) ha⟩
  · intro s c d x hg hc hd
    exact ⟨fmt_lf x,
      printable_print_double2printable s c x hg hc,
      printable_print_double2printable s d x hg hd,
      printable_print_double2printable _ d x (s.Globals_write _ hg) hd,
      printable_print_double2printable _ c x (s.Globals_write _ hg) hc⟩

theorem dispatch_deterministic_witness :
    (∃ ti : List Char,
      printable_print program (int2printable 2) twoInts = .ok (twoInts.write ti) ∧
      printable_print program (int2printable 3) twoInts = .ok (twoInts.write ti) ∧
      printable_print program (int2printable 3) (twoInts.write ti)
        = .ok ((twoInts.write ti).write ti) ∧
      printable_print program (int2printable 2) (twoInts.write ti)
        = .ok ((twoInts.write ti).write ti)) ∧
    (∃ td : List Char,
      printable_print program (double2printable 2) twoDoubles = .ok (twoDoubles.write td) ∧
      printable_print program (double2printable 3) twoDoubles = .ok (twoDoubles.write td) ∧
      printable_print program (double2printable 3) (twoDoubles.write td)
        = .ok ((twoDoubles.write td).write td) ∧
      printable_print program (double2printable 2) (twoDoubles.write td)
        = .ok ((twoDoubles.write td).write td)) :=
  ⟨dispatch_deterministic.1 twoInts 2 3 25 (by decide) (by decide) (by decide),
    dispatch_deterministic.2 twoDoubles 2 3 lit_0_1 (by decide) (by decide) (by decide)⟩

/-! ## Frame and safety -/

/-- C8: dispatching print on a wrapped int variable changes nothing but
standard output, which is extended by the rendering: memory is the same, so the
variable holds the same value and both global vtables hold their initial
value; separately, the same holds of a wrapped double variable. Neither half
needs an object of the other kind in memory. -/
theorem print_no_mutation :
    (∀ (s : State) (a : Ptr) (n : Int), s.Globals → s.mem[a]? = some (.int n) →
      ∃ s1 : State,
        printable_print program (int2printable a) s = .ok s1 ∧
        s1 = { s with out := s.out ++ fmt_d n } ∧
        s1.mem = s.mem ∧ s1.mem[a]? = some (.int n) ∧ s1.Globals) ∧
    (∀ (s : State) (c : Ptr) (x : Binary64), s.Globals → s.mem[c]? = some (.double x) →
      ∃ s2 : State,
        printable_print program (double2printable c) s = .ok s2 ∧
        s2 = { s with out := s.out ++ fmt_lf x } ∧
        s2.mem = s.mem ∧ s2.mem[c]? = some (.double x) ∧ s2.Globals) := by
  constructor
  · intro s a n hg ha
    exact ⟨s.write (fmt_d n), printable_print_int2printable s a n hg ha, rfl, rfl, ha, hg⟩
  · intro s c x hg hc
    exact ⟨s.write (fmt_lf x), printable_print_double2printable s c x hg hc, rfl, rfl, hc, hg⟩

theorem print_no_mutation_witness :
    (∃ s1 : State,
      printable_print program (int2printable 2) twoInts = .ok s1 ∧
      s1 = { twoInts with out := twoInts.out ++ fmt_d 25 } ∧
      s1.mem = twoInts.mem ∧ s1.mem[2]? = some (.int 25) ∧ s1.Globals) ∧
    (∃ s2 : State,
      printable_print program (double2printable 2) twoDoubles = .ok s2 ∧
      s2 = { twoDoubles with out := twoDoubles.out ++ fmt_lf lit_0_1 } ∧
      s2.mem = twoDoubles.mem ∧ s2.mem[2]? = some (.double lit_0_1) ∧ s2.Globals) :=
  ⟨print_no_mutation.1 twoInts 2 25 (by decide) (by decide),
    print_no_mutation.2 twoDoubles 2 lit_0_1 (by decide) (by decide)⟩

/-- C9: the print slot of both global vtables is a pointer to a function of
the program from program start on; so dispatching print on a handle made by
`int2printable` over an int variable returns without a fault and leaves the
vtables populated, and separately so does dispatching print on a handle made
by `double2printable` over a double variable (neither needs an object of the
other kind in memory); both dispatches in `main` return without a fault. -/
theorem descriptors_populated :
    start.Globals ∧
    int_printable_vtable.print ≠ .null ∧ double_printable_vtable.print ≠ .null ∧
    (program int_printable_vtable.print).isSome = true ∧
    (program double_printable_vtable.print).isSome = true ∧
    (∀ (s : State) (a : Ptr) (n : Int), s.Globals → s.mem[a]? = some (.int n) →
      ∃ s1, printable_print program (int2printable a) s = .ok s1 ∧ s1.Globals) ∧
    (∀ (s : State) (c : Ptr) (x : Binary64), s.Globals → s.mem[c]? = some (.double x) →
      ∃ s2, printable_print program (double2printable c) s = .ok s2 ∧ s2.Globals) ∧
    (∃ s1 s2, printable_print program (int2printable (mainLocals start).1)
          (mainLocals start).2.2 = .ok s1 ∧
      printable_print program (double2printable (mainLocals start).2.1) (puts [] s1)
          = .ok s2 ∧
      main start = .ok (0, puts [] s2)) :=
  ⟨by decide, by decide, by decide, rfl, rfl,
    fun s a n hg ha => ⟨_, printable_print_int2printable s a n hg ha, hg⟩,
    fun s c x hg hc => ⟨_, printable_print_double2printable s c x hg hc, hg⟩,
    ⟨_, _, rfl, rfl, rfl⟩⟩

theorem descriptors_populated_witness :
    (∃ s1, printable_print program (int2printable 3) twoInts = .ok s1 ∧ s1.Globals) ∧
    (∃ s2, printable_print program (double2printable 3) twoDoubles = .ok s2 ∧ s2.Globals) :=
  ⟨descriptors_populated.2.2.2.2.2.1 twoInts 3 25 (by decide) (by decide),
    descriptors_populated.2.2.2.2.2.2.1 twoDoubles 3 lit_0_1 (by decide) (by decide)⟩

/-- C10: a handle made while its int variable holds `n` prints the value
the variable holds when print is dispatched: after the variable is assigned
`m`, dispatch on the handle writes the rendering of `m`, which is not the
rendering of `n` when `m` differs from `n`; separately, after a double variable
holding `x` is assigned `y`, dispatch on its handle writes the rendering of
`y`. Neither half needs an object of the other kind in memory. -/
theorem handle_borrows_value :
    (∀ (s : State) (a : Ptr) (n m : Int), s.Globals → s.mem[a]? = some (.int n) →
      printable_print program (int2printable a) (s.store a (.int m))
        = .ok ((s.store a (.int m)).write (fmt_d m)) ∧
      (m ≠ n → fmt_d m ≠ fmt_d n)) ∧
    (∀ (s : State) (c : Ptr) (x y : Binary64), s.Globals → s.mem[c]? = some (.double x) →
      printable_print program (double2printable c) (s.store c (.double y))
        = .ok ((s.store c (.double y)).write (fmt_lf y))) := by
  constructor
  · intro s a n m hg ha
    refine ⟨?_, fun hne h => hne (fmt_d_injective m n h)⟩
    exact printable_print_int2printable _ a m
      (s.Globals_store a _ _ hg ha (fun vt h => by cases h)) (s.mem_store_same a _ _ ha)
  · intro s c x y hg hc
    exact printable_print_double2printable _ c y
      (s.Globals_store c _ _ hg hc (fun vt h => by cases h)) (s.mem_store_same c _ _ hc)

theorem handle_borrows_value_witness :
    (printable_print program (int2printable 2) (twoInts.store 2 (.int (-7)))
        = .ok ((twoInts.store 2 (.int (-7))).write (fmt_d (-7))) ∧
      ((-7 : Int) ≠ 25 → fmt_d (-7) ≠ fmt_d 25)) ∧
    printable_print program (double2printable 2) (twoDoubles.store 2 (.double lit_3708_8))
      = .ok ((twoDoubles.store 2 (.double lit_3708_8)).write (fmt_lf lit_3708_8)) :=
  ⟨handle_borrows_value.1 twoInts 2 25 (-7) (by decide) (by decide),
    handle_borrows_value.2 twoDoubles 2 lit_0_1 lit_3708_8 (by decide) (by decide)⟩

end PrintableNewtype
